import Mathlib

/-!
Shallow embedding of the firezone connectivity core, as needed to check the
frozen claims against the source:

- `rust/connlib/clients/shared/src/eventloop.rs` — `SentConnectionIntents`
- `rust/connlib/snownet/src/node.rs` — `Node`, `Connection`, candidate helpers
- `rust/phoenix-channel/src/lib.rs` — `PhoenixChannel::close` and `State`

Machine integers (`u64` request ids, opaque UUID resource ids, socket
addresses, instants) are modelled as `Nat`.  Time is modelled in seconds, so
`Duration::from_secs(k)` becomes the literal `k`.  HashMaps are modelled as
association lists whose order is the iteration order; the claims under
scrutiny do not depend on hash-iteration order.
-/

namespace Firezone

/-! ## SentConnectionIntents (eventloop.rs)

The intent map `HashMap<OutboundRequestId, ResourceId>` is modelled as an
association list with unique keys.  `HashMap::insert` replaces an existing
binding for the key, which for an association list is "erase the key, then
append". -/

abbrev IntentMap := List (Nat × Nat)

/-- `HashMap::insert` on the association-list model: any existing binding of
`id` is dropped, then the new binding is appended. -/
def registerNewIntent (m : IntentMap) (id : Nat) (resource : Nat) : IntentMap :=
  (m.filter fun p => p.1 ≠ id) ++ [(id, resource)]

/-- `SentConnectionIntents::handle_connection_details_received`: returns
whether the details should be accepted together with the updated map.
Mirrors the source: first check for a more recent intent for the same
resource, then check that `reference` is registered for the resource, and
only then retain all entries whose value differs from the resource. -/
def handleConnectionDetailsReceived (m : IntentMap) (reference : Nat) (r : Nat) :
    Bool × IntentMap :=
  let hasMoreRecentIntent := m.any fun p => decide (p.1 > reference) && decide (p.2 = r)
  if hasMoreRecentIntent then
    (false, m)
  else
    let hasIntent := (m.lookup reference).any fun resource => decide (resource = r)
    if !hasIntent then
      (false, m)
    else
      (true, m.filter fun p => p.2 ≠ r)

/-- Run a sequence of `register_new_intent` calls on the empty map. -/
def runIntents (l : List (Nat × Nat)) : IntentMap :=
  l.foldl (fun m p => registerNewIntent m p.1 p.2) []

end Firezone

namespace Firezone

lemma lookup_mem {m : IntentMap} {r R : Nat}
    (h : m.lookup r = some R) : (r, R) ∈ m := by
  induction m with
  | nil => simp [List.lookup] at h
  | cons p t ih =>
    obtain ⟨k, v⟩ := p
    by_cases hpr : r = k
    · subst hpr
      simp only [List.lookup_cons, beq_self_eq_true, Option.some.injEq] at h
      subst h
      exact List.mem_cons_self _ _
    · rw [List.lookup_cons, beq_false_of_ne hpr] at h
      exact List.mem_cons_of_mem _ (ih h)

lemma keys_nodup_runIntents (l : List (Nat × Nat)) :
    ((runIntents l).map Prod.fst).Nodup := by
  suffices h : ∀ m : IntentMap, (m.map Prod.fst).Nodup →
      ((l.foldl (fun m p => registerNewIntent m p.1 p.2) m).map Prod.fst).Nodup by
    exact h [] (by simp)
  induction l with
  | nil => intro m hm; simpa using hm
  | cons p t ih =>
    intro m hm
    apply ih
    unfold registerNewIntent
    rw [List.map_append, List.nodup_append]
    refine ⟨?_, by simp, ?_⟩
    · exact hm.sublist ((List.filter_sublist m).map Prod.fst)
    · intro a ha hb
      simp only [List.map_cons, List.map_nil, List.mem_singleton] at hb
      subst hb
      simp only [List.mem_map, List.mem_filter] at ha
      obtain ⟨q, ⟨_, hq⟩, hfst⟩ := ha
      rw [hfst] at hq
      simp at hq

lemma mem_lookup_of_keys_nodup {m : IntentMap} {r R : Nat}
    (hnd : (m.map Prod.fst).Nodup) (hmem : (r, R) ∈ m) : m.lookup r = some R := by
  induction m with
  | nil => simp at hmem
  | cons p t ih =>
    obtain ⟨k, v⟩ := p
    rw [List.map_cons, List.nodup_cons] at hnd
    rcases List.mem_cons.mp hmem with heq | hmem
    · obtain ⟨hk, hv⟩ := Prod.mk.injEq .. ▸ heq.symm
      subst hk hv
      simp [List.lookup]
    · have hne : r ≠ k := by
        intro hcontra
        apply hnd.1
        have := List.mem_map_of_mem Prod.fst hmem
        simpa [← hcontra] using this
      rw [List.lookup_cons, beq_false_of_ne hne]
      exact ih hnd.2 hmem

end Firezone

namespace Firezone

lemma any_more_recent_iff (m : IntentMap) (r R : Nat) :
    (m.any fun p => decide (p.1 > r) && decide (p.2 = R)) = true ↔
      ∃ p ∈ m, p.1 > r ∧ p.2 = R := by
  rw [List.any_eq_true]
  constructor
  · rintro ⟨p, hp, hcond⟩
    rw [Bool.and_eq_true, decide_eq_true_iff, decide_eq_true_iff] at hcond
    exact ⟨p, hp, hcond⟩
  · rintro ⟨p, hp, h1, h2⟩
    exact ⟨p, hp, by rw [Bool.and_eq_true, decide_eq_true_iff, decide_eq_true_iff]; exact ⟨h1, h2⟩⟩

lemma has_intent_iff (m : IntentMap) (r R : Nat) :
    ((m.lookup r).any fun resource => decide (resource = R)) = true ↔
      m.lookup r = some R := by
  cases h : m.lookup r with
  | none => simp [Option.any]
  | some v => simp [Option.any]

end Firezone

namespace Firezone

example :
    (handleConnectionDetailsReceived (runIntents [(1, 5), (2, 5)]) 1 5).1 = false := by decide

example :
    (handleConnectionDetailsReceived (runIntents [(1, 5), (2, 7)]) 1 5).1 = true ∧
    (handleConnectionDetailsReceived (runIntents [(1, 5), (2, 7)]) 2 7).1 = true := by decide

example :
    (handleConnectionDetailsReceived (runIntents [(1, 5), (2, 5)]) 2 5).1 = true ∧
    (handleConnectionDetailsReceived (runIntents [(1, 5), (2, 5)]) 2 5).2 = [] := by decide

/-- Claim C1: for every sequence of `register_new_intent` calls with strictly
increasing request ids and every resource `R`,
`handle_connection_details_received(r, R)` returns true iff `r` is mapped to
`R` in the intent map and no entry with a larger request id maps to `R`; on
true every entry mapping to `R` is removed (and nothing else), and on false
the map is unchanged. -/
theorem intents_duplicate_suppression (l : List (Nat × Nat)) (r R : Nat)
    (_hinc : (l.map Prod.fst).Pairwise (· < ·)) :
    ((handleConnectionDetailsReceived (runIntents l) r R).1 = true ↔
      ((r, R) ∈ runIntents l ∧ ∀ p ∈ runIntents l, p.2 = R → p.1 ≤ r)) ∧
    ((handleConnectionDetailsReceived (runIntents l) r R).1 = true →
      (handleConnectionDetailsReceived (runIntents l) r R).2
        = (runIntents l).filter fun p => p.2 ≠ R) ∧
    ((handleConnectionDetailsReceived (runIntents l) r R).1 = false →
      (handleConnectionDetailsReceived (runIntents l) r R).2 = runIntents l) := by
  have hnd := keys_nodup_runIntents l
  unfold handleConnectionDetailsReceived
  by_cases hrec : ((runIntents l).any fun p => decide (p.1 > r) && decide (p.2 = R)) = true
  · rw [any_more_recent_iff] at hrec
    obtain ⟨q, hq, hq1, hq2⟩ := hrec
    rw [if_pos (by rw [any_more_recent_iff]; exact ⟨q, hq, hq1, hq2⟩)]
    refine ⟨?_, by simp, by simp⟩
    simp only [Bool.false_eq_true, false_iff, not_and]
    intro _
    push_neg
    exact ⟨q, hq, hq2, by omega⟩
  · rw [if_neg hrec]
    rw [any_more_recent_iff] at hrec
    push_neg at hrec
    by_cases hint : (((runIntents l).lookup r).any fun resource => decide (resource = R)) = true
    · rw [has_intent_iff] at hint
      rw [if_neg (by rw [Bool.not_eq_true', ← Bool.not_eq_true, has_intent_iff]; simp [hint])]
      refine ⟨?_, fun _ => rfl, by simp⟩
      simp only [true_iff]
      refine ⟨lookup_mem hint, ?_⟩
      intro p hp hpR
      by_contra hgt
      exact absurd hpR (hrec p hp (by omega))
    · rw [if_pos (by rw [Bool.not_eq_true] at hint; simp [hint])]
      refine ⟨?_, by simp, fun _ => rfl⟩
      simp only [Bool.false_eq_true, false_iff, not_and]
      intro hmem _
      rw [has_intent_iff] at hint
      exact hint (mem_lookup_of_keys_nodup hnd hmem)

/-- Witness for C1 at a concrete run: two intents `(1 ↦ 5)`, `(2 ↦ 5)`;
handling the reply for request 2 succeeds and drops both entries. -/
theorem intents_duplicate_suppression_witness :
    (handleConnectionDetailsReceived (runIntents [(1, 5), (2, 5)]) 2 5).1 = true :=
  ((intents_duplicate_suppression [(1, 5), (2, 5)] 2 5 (by decide)).1).mpr (by decide)

end Firezone

namespace Firezone

/-! ## PhoenixChannel (phoenix-channel/src/lib.rs)

The `State` enum, with the websocket stream payloads erased (the stream is
IO; only which variant the channel is in matters for the close contract). -/

inductive ChanState where
  | connected
  | connecting
  | closing
  | closed
deriving DecidableEq, Repr, Fintype

/-- The `Connecting` error returned by `PhoenixChannel::close`. -/
inductive CloseError where
  | connecting
deriving DecidableEq, Repr

/-- `PhoenixChannel::close`: the source replaces the state with `Closed`
(`mem::replace`), then matches on the old state: `Connecting` returns the
`Connecting` error (leaving the state `Closed`), `Closing` and `Connected`
re-install `Closing` and succeed, `Closed` stays `Closed` and succeeds. -/
def chanClose (s : ChanState) : Option CloseError × ChanState :=
  match s with
  | .connecting => (some .connecting, .closed)
  | .closing => (none, .closing)
  | .connected => (none, .closing)
  | .closed => (none, .closed)

/-- Result of one turn of `PhoenixChannel::poll` for the purpose of the close
contract: either suspended, or ready with `Event::Closed`, or ready with
something else (a message, an error, ...). -/
inductive ChanPollHead where
  | pending
  | readyClosed
  | other
deriving DecidableEq, Repr

/-- What `stream.poll_close_unpin` reports while in `Closing`; the websocket
is external IO so its outcome is an input of the model. -/
inductive StreamCloseResult where
  | pending
  | ready
  | readyErr
deriving DecidableEq, Repr, Fintype

/-- Head of the `PhoenixChannel::poll` loop, restricted to the `Closing` and
`Closed` states (the other states go on to socket IO): `Closed` immediately
yields `Event::Closed`; `Closing` polls the stream close and yields
`Event::Closed` as soon as it is ready, whether or not it errored. -/
def chanPollClosePath (s : ChanState) (streamClose : StreamCloseResult) :
    Option ChanPollHead :=
  match s with
  | .closed => some .readyClosed
  | .closing =>
    match streamClose with
    | .pending => some .pending
    | .ready => some .readyClosed
    | .readyErr => some .readyClosed
  | .connected => none
  | .connecting => none

end Firezone

namespace Firezone

/-- Counterexample to claim C7 as stated: `close()` also succeeds when the
channel is `Closed` (and likewise `Closing`), which is not the `Connected`
state, so a graceful close does not require `Connected`. -/
theorem chan_close_not_only_from_connected :
    (chanClose .closed).1 = none ∧ ChanState.closed ≠ ChanState.connected := by decide

/-- Claim C7 (amended): `close()` returns the `Connecting` error exactly when
called while `Connecting` (leaving the channel `Closed`); it succeeds from
`Connected`, `Closing` and `Closed` — from `Connected` or `Closing` it
transitions the channel to `Closing`, from `Closed` it stays `Closed` — and
from `Closing` or `Closed` a subsequent `poll` yields `Event::Closed` as soon
as the websocket close completes. -/
theorem chan_close_characterization :
    (∀ s, (chanClose s).1 = some .connecting ↔ s = .connecting) ∧
    chanClose .connecting = (some .connecting, .closed) ∧
    chanClose .connected = (none, .closing) ∧
    chanClose .closing = (none, .closing) ∧
    chanClose .closed = (none, .closed) ∧
    chanPollClosePath .closing .ready = some .readyClosed ∧
    chanPollClosePath .closing .readyErr = some .readyClosed ∧
    (∀ r, chanPollClosePath .closed r = some .readyClosed) := by decide

end Firezone

namespace Firezone
namespace Snownet

/-! ## snownet Node (connlib/snownet/src/node.rs)

Socket addresses, public keys and ids are modelled as `Nat`; instants as
`Nat` seconds, so `Duration::from_secs(k)` is the literal `k`.  The str0m
`IceAgent` and the boringtun `Tunn` are external crates: they are modelled as
data recording the outcomes they will report to the node (their event and
transmit queues, the result of the next `decapsulate`, ...), and the theorems
quantify over those outcomes. -/

/-- `str0m::CandidateKind`. -/
inductive CandidateKind where
  | host
  | serverReflexive
  | peerReflexive
  | relayed
deriving DecidableEq, Repr

/-- An ICE candidate reduced to its kind and address.  SDP serialisation
round-trips, so events carry the candidate itself. -/
structure Candidate where
  kind : CandidateKind
  addr : Nat
deriving DecidableEq, Repr

/-- `str0m::IceAgentEvent`, with the variants the node matches on. -/
inductive IceAgentEvent where
  | discoveredRecv (source : Nat)
  | iceConnectionStateDisconnected
  | iceConnectionStateOther
  | nominatedSend (source : Nat) (destination : Nat)
  | iceRestart
deriving DecidableEq, Repr

/-- A transmit handed out by `IceAgent::poll_transmit`. -/
structure AgentTransmit where
  source : Nat
  destination : Nat
  contents : List Nat
deriving DecidableEq, Repr

/-- Model of a str0m `IceAgent` (external crate): its candidate sets, the
messages it accepts, and the queues of events and transmits it will hand out
when drained.  `IceAgent::handle_timeout` is modelled as the identity: the
events the agent would emit in the drained round are part of the state. -/
structure IceAgent where
  localCandidates : List Candidate
  remoteCandidates : List Candidate
  acceptedMsgs : List Nat
  events : List IceAgentEvent
  transmits : List AgentTransmit
  pollTimeoutV : Option Nat
deriving DecidableEq, Repr

/-- A fresh `IceAgent::new()`. -/
def IceAgent.new : IceAgent := ⟨[], [], [], [], [], none⟩

/-- `IceAgent::add_local_candidate` per its contract (§4.2 of the spec):
returns true iff the candidate is new, in which case it is added. -/
def IceAgent.addLocalCandidate (a : IceAgent) (c : Candidate) : Bool × IceAgent :=
  if c ∈ a.localCandidates then (false, a)
  else (true, { a with localCandidates := a.localCandidates ++ [c] })

/-- `IceAgent::invalidate_candidate`: returns true iff the candidate was
present, in which case it is removed. -/
def IceAgent.invalidateCandidate (a : IceAgent) (c : Candidate) : Bool × IceAgent :=
  if c ∈ a.localCandidates then
    (true, { a with localCandidates := a.localCandidates.filter (· ≠ c) })
  else (false, a)

/-- `snownet::Event<TId>`. -/
inductive NodeEvent where
  | newIceCandidate (connection : Nat) (candidate : Candidate)
  | invalidateIceCandidate (connection : Nat) (candidate : Candidate)
  | connectionEstablished (connection : Nat)
  | connectionFailed (connection : Nat)
  | connectionClosed (connection : Nat)
deriving DecidableEq, Repr

/-- `snownet::Transmit`. -/
structure Transmit where
  src : Option Nat
  dst : Nat
  payload : List Nat
deriving DecidableEq, Repr

/-- `snownet::CandidateEvent` (emitted by an `Allocation`). -/
inductive CandidateEvent where
  | nw (c : Candidate)
  | invalid (c : Candidate)
deriving DecidableEq, Repr

/-- Modelled from the spec: `snownet::Allocation` (allocation.rs is not part
of the sources at hand; §4.1 of the spec gives its contract).  The TURN
server may be reachable on several addresses (`RelaySocket::matches`); a
channel-data message is only produced for peers with a bound channel, and is
modelled as the channel number prefixed to the payload; the results of
`handle_input`/`decapsulate` for inbound packets from this server are data of
the model. -/
structure Allocation where
  serverAddrs : List Nat
  sendAddr : Nat
  channels : List (Nat × Nat)
  relayedSockets : List Nat
  candidates : List Candidate
  events : List CandidateEvent
  handleInputResult : Bool
  decapResult : Option (Nat × List Nat × Nat)
  pollTimeoutV : Option Nat
  freeReason : Option Nat
deriving DecidableEq, Repr

/-- `RelaySocket::matches`. -/
def Allocation.matches (a : Allocation) (addr : Nat) : Bool :=
  addr ∈ a.serverAddrs

/-- `Allocation::has_socket`. -/
def Allocation.hasSocket (a : Allocation) (addr : Nat) : Bool :=
  addr ∈ a.relayedSockets

/-- `Allocation::encode_to_owned_transmit`: `None` when no channel is bound
for the peer; otherwise the payload framed as channel data towards the
relay. -/
def Allocation.encodeToOwnedTransmit (a : Allocation) (peer : Nat)
    (data : List Nat) : Option Transmit :=
  (a.channels.lookup peer).map fun ch => ⟨none, a.sendAddr, ch :: data⟩

/-- Modelled from the spec: the fixed-capacity ring buffer for WG packets
buffered while ICE nominates (ringbuffer.rs is not part of the sources at
hand); overflow silently drops the oldest element, iteration is FIFO. -/
structure RingBuffer where
  capacity : Nat
  items : List (List Nat)
deriving DecidableEq, Repr

def RingBuffer.new (capacity : Nat) : RingBuffer := ⟨capacity, []⟩

def RingBuffer.push (b : RingBuffer) (x : List Nat) : RingBuffer :=
  if b.items.length < b.capacity then { b with items := b.items ++ [x] }
  else { b with items := b.items.drop 1 ++ [x] }

end Snownet
end Firezone

namespace Firezone
namespace Snownet

/-- `snownet::PeerSocket<RId>`. -/
inductive PeerSocket where
  | direct (source : Nat) (dest : Nat)
  | relay (relay : Nat) (dest : Nat)
deriving DecidableEq, Repr

/-- `snownet::ConnectionState<RId>`. -/
inductive ConnState where
  | connecting (possibleSockets : List Nat) (buffered : RingBuffer)
  | connected (peerSocket : PeerSocket) (possibleSockets : List Nat)
  | failed
  | idle
deriving DecidableEq, Repr

/-- `ConnectionState::add_possible_socket`. -/
def ConnState.addPossibleSocket (s : ConnState) (socket : Nat) : ConnState :=
  match s with
  | .connecting ps b => .connecting (ps ++ [socket]) b
  | .connected p ps => .connected p (ps ++ [socket])
  | .idle => .idle
  | .failed => .failed

/-- Outcome of the next `Tunn::decapsulate` call together with the packets a
subsequent drain (`decapsulate(None, [], buf)` until `Done`) would yield. -/
inductive TunnDecap where
  | done
  | errorE (e : Nat)
  | toTunnel (pkt : List Nat)
  | toNetwork (first : List Nat) (rest : List (List Nat))
deriving DecidableEq, Repr

/-- Outcome of the next `Tunn::update_timers` call. -/
inductive TunnTimers where
  | done
  | connectionExpired
  | errOther
  | writeToNetwork (pkt : List Nat)
deriving DecidableEq, Repr

/-- Model of a boringtun `Tunn` (external crate): whether
`time_since_last_handshake` is `Some` now and after the next `decapsulate`,
and the outcomes the tunnel will report for its next calls. -/
structure Tunn where
  handshakeComplete : Bool
  handshakeAfterDecap : Bool
  decapResult : TunnDecap
  updateTimersResult : TunnTimers
  handshakeInitiation : Option (List Nat)
deriving DecidableEq, Repr

/-- A fresh `Tunn::new`: no handshake yet, nothing pending. -/
def Tunn.init : Tunn := ⟨false, false, .done, .done, none⟩

/-- `utils::earliest`: the earlier of two optional instants. -/
def earliest (a b : Option Nat) : Option Nat :=
  match a, b with
  | none, b => b
  | some x, none => some x
  | some x, some y => some (min x y)

/-- `snownet::Connection<RId>`. -/
structure Connection where
  agent : IceAgent
  tunnel : Tunn
  remotePubKey : Nat
  nextTimerUpdate : Nat
  state : ConnState
  intentSentAt : Nat
  signallingCompletedAt : Nat
  lastOutgoing : Nat
  lastIncoming : Nat
deriving DecidableEq, Repr

/-- `CANDIDATE_TIMEOUT`: 10 seconds. -/
def candidateTimeoutDur : Nat := 10

/-- `HANDSHAKE_TIMEOUT` for an answer: 20 seconds. -/
def handshakeTimeoutDur : Nat := 20

/-- `MAX_IDLE`: 5 minutes. -/
def maxIdleDur : Nat := 5 * 60

def Connection.candidateTimeout (c : Connection) : Option Nat :=
  if c.agent.remoteCandidates ≠ [] then none
  else some (c.signallingCompletedAt + candidateTimeoutDur)

def Connection.idleTimeout (c : Connection) : Nat :=
  max c.lastIncoming c.lastOutgoing + maxIdleDur

def Connection.pollTimeout (c : Connection) : Option Nat :=
  earliest (some c.idleTimeout)
    (earliest c.agent.pollTimeoutV
      (earliest (some c.nextTimerUpdate) c.candidateTimeout))

/-- `Connection::accepts`. -/
def Connection.accepts (c : Connection) (addr : Nat) : Bool :=
  match c.state with
  | .connecting possibleSockets _ => addr ∈ possibleSockets
  | .connected peerSocket possibleSockets =>
    let fromNominated := match peerSocket with
      | .direct _ dest => dest = addr
      | .relay _ dest => dest = addr
    fromNominated || addr ∈ possibleSockets
  | .idle => false
  | .failed => false

def Connection.wgHandshakeComplete (c : Connection) : Bool :=
  c.tunnel.handshakeComplete

def Connection.socket (c : Connection) : Option PeerSocket :=
  match c.state with
  | .connected peerSocket _ => some peerSocket
  | .connecting _ _ => none
  | .idle => none
  | .failed => none

def Connection.isFailed (c : Connection) : Bool :=
  c.state = ConnState.failed

def Connection.isIdle (c : Connection) : Bool :=
  c.state = ConnState.idle

/-- `encode_as_channel_data`: needs an allocation on the relay and a bound
channel for the peer. -/
def encodeAsChannelData (relay : Nat) (dest : Nat) (contents : List Nat)
    (allocations : List (Nat × Allocation)) : Option Transmit :=
  (allocations.lookup relay).bind fun a => a.encodeToOwnedTransmit dest contents

/-- `make_owned_transmit`. -/
def makeOwnedTransmit (socket : PeerSocket) (message : List Nat)
    (allocations : List (Nat × Allocation)) : Option Transmit :=
  match socket with
  | .direct source dest => some ⟨some source, dest, message⟩
  | .relay relay dest => encodeAsChannelData relay dest message allocations

end Snownet
end Firezone

namespace Firezone
namespace Snownet

/-- `Connection::force_handshake`: ask boringtun for a handshake initiation
and, when it produces one, transmit it via the current peer socket.  The
source `expect`s a socket; every call site has just transitioned to
`Connected`, which the model mirrors by returning no transmit otherwise. -/
def Connection.forceHandshake (conn : Connection)
    (allocations : List (Nat × Allocation)) (ts : List Transmit) :
    Connection × List Transmit :=
  match conn.tunnel.handshakeInitiation with
  | none => (conn, ts)
  | some bytes =>
    match conn.socket with
    | none => (conn, ts)
    | some sock => (conn, ts ++ (makeOwnedTransmit sock bytes allocations).toList)

/-- On `NominatedSend`, the peer socket is `Relay` when the nominated source
is a socket of some allocation, `Direct` otherwise. -/
def nominatedSocket (allocations : List (Nat × Allocation)) (source dest : Nat) :
    PeerSocket :=
  match allocations.find? fun a => a.2.hasSocket source with
  | some (rid, _) => PeerSocket.relay rid dest
  | none => PeerSocket.direct source dest

/-- One step of the `while let Some(event) = self.agent.poll_event()` loop in
`Connection::handle_timeout`. -/
def Connection.processIceEvent (allocations : List (Nat × Allocation))
    (acc : Connection × List Transmit) (ev : IceAgentEvent) :
    Connection × List Transmit :=
  let (conn, ts) := acc
  match ev with
  | .discoveredRecv source =>
    ({ conn with state := conn.state.addPossibleSocket source }, ts)
  | .iceConnectionStateDisconnected => ({ conn with state := .failed }, ts)
  | .iceConnectionStateOther => (conn, ts)
  | .iceRestart => (conn, ts)
  | .nominatedSend source destination =>
    let remoteSocket := nominatedSocket allocations source destination
    match conn.state with
    | .connecting possibleSockets buffered =>
      let flushed := buffered.items.filterMap fun packet =>
        makeOwnedTransmit remoteSocket packet allocations
      let conn := { conn with state := .connected remoteSocket possibleSockets }
      conn.forceHandshake allocations (ts ++ flushed)
    | .connected peerSocket possibleSockets =>
      if peerSocket = remoteSocket then (conn, ts)
      else
        let conn := { conn with state := .connected remoteSocket possibleSockets }
        conn.forceHandshake allocations ts
    | .idle => (conn, ts)
    | .failed => (conn, ts)

/-- One step of the `while let Some(transmit) = self.agent.poll_transmit()`
loop in `Connection::handle_timeout`. -/
def processAgentTransmit (allocations : List (Nat × Allocation))
    (ts : List Transmit) (t : AgentTransmit) : List Transmit :=
  match allocations.find? fun a => a.2.hasSocket t.source with
  | none => ts ++ [⟨some t.source, t.destination, t.contents⟩]
  | some (_, alloc) =>
    match alloc.encodeToOwnedTransmit t.destination t.contents with
    | none => ts
    | some channelData => ts ++ [channelData]

/-- Drain the agent's event and transmit queues, as the tail of
`Connection::handle_timeout` does. -/
def Connection.drainAgent (conn : Connection)
    (allocations : List (Nat × Allocation)) (ts : List Transmit) :
    Connection × List Transmit :=
  let evs := conn.agent.events
  let ats := conn.agent.transmits
  let conn := { conn with agent := { conn.agent with events := [], transmits := [] } }
  let (conn, ts) := evs.foldl (Connection.processIceEvent allocations) (conn, ts)
  (conn, ats.foldl (processAgentTransmit allocations) ts)

/-- `Connection::handle_timeout`.  The agent's own `handle_timeout` is the
identity in the model; the candidate-timeout check, the idle check, the
once-per-second WG timer update (with its early return when no socket is
nominated yet) and the agent drains follow the source's order.  Returns the
updated connection and the transmits appended to the node's queue. -/
def Connection.handleTimeout (conn : Connection) (now : Nat)
    (allocations : List (Nat × Allocation)) : Connection × List Transmit :=
  if conn.candidateTimeout.any (fun timeout => decide (now ≥ timeout)) then
    ({ conn with state := .failed }, [])
  else
    let conn := if now ≥ conn.idleTimeout then { conn with state := .idle } else conn
    if now ≥ conn.nextTimerUpdate then
      let conn := { conn with nextTimerUpdate := now + 1 }
      match conn.socket with
      | none => (conn, [])
      | some peerSocket =>
        let (conn, ts) :=
          match conn.tunnel.updateTimersResult with
          | .done => (conn, ([] : List Transmit))
          | .connectionExpired => ({ conn with state := .failed }, [])
          | .errOther => (conn, [])
          | .writeToNetwork b => (conn, (makeOwnedTransmit peerSocket b allocations).toList)
        conn.drainAgent allocations ts
    else
      conn.drainAgent allocations []

/-- Result of `Connection::decapsulate` towards the node: a decrypted IP
packet, internal consumption, or a decapsulation error. -/
inductive ConnDecap where
  | ipPacket (pkt : List Nat)
  | internal
  | failedE (e : Nat)
deriving DecidableEq, Repr

/-- `Connection::decapsulate`: dispatch the ciphertext to the WG tunnel;
`WriteToTunnel` yields the decrypted packet (and stamps `last_incoming`),
`WriteToNetwork` packets are buffered while `Connecting` and transmitted via
the peer socket while `Connected`, draining any queued packets. -/
def Connection.decapsulate (conn : Connection)
    (allocations : List (Nat × Allocation)) (now : Nat) :
    ConnDecap × Connection × List Transmit :=
  let res := conn.tunnel.decapResult
  let conn := { conn with tunnel :=
    { conn.tunnel with handshakeComplete := conn.tunnel.handshakeAfterDecap } }
  match res with
  | .done => (.internal, conn, [])
  | .errorE e => (.failedE e, conn, [])
  | .toTunnel pkt => (.ipPacket pkt, { conn with lastIncoming := now }, [])
  | .toNetwork first rest =>
    match conn.state with
    | .connecting possibleSockets buffered =>
      let buffered := (first :: rest).foldl RingBuffer.push buffered
      (.internal, { conn with state := .connecting possibleSockets buffered }, [])
    | .connected peerSocket possibleSockets =>
      let ts := (first :: rest).filterMap fun p => makeOwnedTransmit peerSocket p allocations
      (.internal, { conn with state := .connected peerSocket possibleSockets }, ts)
    | .idle => (.internal, conn, [])
    | .failed => (.internal, conn, [])

/-- `snownet::InitialConnection` (client side, awaiting an answer). -/
structure InitialConnection where
  agent : IceAgent
  sessionKey : Nat
  createdAt : Nat
  intentSentAt : Nat
  isFailed : Bool
deriving DecidableEq, Repr

def InitialConnection.noAnswerReceivedTimeout (ic : InitialConnection) : Nat :=
  ic.createdAt + handshakeTimeoutDur

/-- `InitialConnection::handle_timeout`. -/
def InitialConnection.handleTimeout (ic : InitialConnection) (now : Nat) :
    InitialConnection :=
  if now ≥ ic.noAnswerReceivedTimeout then { ic with isFailed := true } else ic

def InitialConnection.pollTimeout (ic : InitialConnection) : Option Nat :=
  earliest ic.agent.pollTimeoutV (some ic.noAnswerReceivedTimeout)

end Snownet
end Firezone

namespace Firezone
namespace Snownet

/-- `add_local_candidate` (free function in node.rs): server-reflexive
candidates are never added to the agent and are always signalled; other kinds
are added to the agent and signalled only when the agent reports them new. -/
def addLocalCandidate (id : Nat) (agent : IceAgent) (c : Candidate)
    (evs : List NodeEvent) : IceAgent × List NodeEvent :=
  if c.kind = .serverReflexive then
    (agent, evs ++ [.newIceCandidate id c])
  else
    let (isNew, agent) := agent.addLocalCandidate c
    if isNew then (agent, evs ++ [.newIceCandidate id c]) else (agent, evs)

/-- `remove_local_candidate` (free function in node.rs): server-reflexive
candidates are not invalidated on the agent and a `NewIceCandidate` event is
pushed for them; other kinds are invalidated and `InvalidateIceCandidate` is
pushed only when the agent reports them present. -/
def removeLocalCandidate (id : Nat) (agent : IceAgent) (c : Candidate)
    (evs : List NodeEvent) : IceAgent × List NodeEvent :=
  if c.kind = .serverReflexive then
    (agent, evs ++ [.newIceCandidate id c])
  else
    let (wasPresent, agent) := agent.invalidateCandidate c
    if wasPresent then (agent, evs ++ [.invalidateIceCandidate id c]) else (agent, evs)

/-- The node: owner of allocations, connections, and the event and transmit
queues.  The private key, WG index generator, rate-limiter object, scratch
buffer and stats are not needed by any claim and are omitted. -/
structure Node where
  hostCandidates : List Candidate
  bufferedTransmits : List Transmit
  nextRateLimiterReset : Option Nat
  allocations : List (Nat × Allocation)
  initial : List (Nat × InitialConnection)
  established : List (Nat × Connection)
  pendingEvents : List NodeEvent
deriving DecidableEq, Repr

/-- `Node::new`. -/
def Node.new : Node := ⟨[], [], none, [], [], [], []⟩

/-- Apply `f` to every agent, initial connections first, then established
ones — the iteration order of `Connections::agents_mut`. -/
def Node.withAllAgents (n : Node)
    (f : Nat → IceAgent → List NodeEvent → IceAgent × List NodeEvent) : Node :=
  let step := fun (acc : List (Nat × InitialConnection) × List NodeEvent)
      (p : Nat × InitialConnection) =>
    let (agent, evs) := f p.1 p.2.agent acc.2
    (acc.1 ++ [(p.1, { p.2 with agent := agent })], evs)
  let (ini, evs) := n.initial.foldl step ([], n.pendingEvents)
  let stepE := fun (acc : List (Nat × Connection) × List NodeEvent)
      (p : Nat × Connection) =>
    let (agent, evs) := f p.1 p.2.agent acc.2
    (acc.1 ++ [(p.1, { p.2 with agent := agent })], evs)
  let (est, evs) := n.established.foldl stepE ([], evs)
  { n with initial := ini, established := est, pendingEvents := evs }

/-- `add_local_candidate_to_all`. -/
def Node.addLocalCandidateToAll (n : Node) (c : Candidate) : Node :=
  n.withAllAgents fun id agent evs => addLocalCandidate id agent c evs

/-- The `CandidateEvent::Invalid` arm of
`bindings_and_allocations_drain_events`. -/
def Node.removeLocalCandidateFromAll (n : Node) (c : Candidate) : Node :=
  n.withAllAgents fun id agent evs => removeLocalCandidate id agent c evs

/-- `Node::reset`: clear allocations, buffered transmits and pending events,
queue one `ConnectionClosed` per connection (initial ids first, then
established, per `Connections::iter_ids`), then clear host candidates and all
connections. -/
def Node.reset (n : Node) : Node :=
  let closed := (n.initial.map Prod.fst ++ n.established.map Prod.fst).map
    NodeEvent.connectionClosed
  { n with allocations := [], bufferedTransmits := [], pendingEvents := closed,
           hostCandidates := [], initial := [], established := [] }

/-- `Node::poll_event`: pop the front of the pending-event queue. -/
def Node.pollEvent (n : Node) : Option (NodeEvent × Node) :=
  match n.pendingEvents with
  | [] => none
  | e :: rest => some (e, { n with pendingEvents := rest })

/-- `Node::poll_timeout`: the earliest of all connection, allocation and
rate-limiter deadlines. -/
def Node.pollTimeout (n : Node) : Option Nat :=
  let ct := n.initial.foldl (fun acc p => earliest acc p.2.pollTimeout) none
  let ct := n.established.foldl (fun acc p => earliest acc p.2.pollTimeout) ct
  let ct := n.allocations.foldl (fun acc p => earliest acc p.2.pollTimeoutV) ct
  earliest ct n.nextRateLimiterReset

/-- `Connections::gc`: drop failed initial connections (emitting
`ConnectionFailed`), drop failed established connections (emitting
`ConnectionFailed`) and idle ones (emitting `ConnectionClosed`). -/
def Node.gc (n : Node) : Node :=
  let (ini, evs) := n.initial.foldl
    (fun (acc : List (Nat × InitialConnection) × List NodeEvent) p =>
      if p.2.isFailed then (acc.1, acc.2 ++ [.connectionFailed p.1])
      else (acc.1 ++ [p], acc.2))
    ([], n.pendingEvents)
  let (est, evs) := n.established.foldl
    (fun (acc : List (Nat × Connection) × List NodeEvent) p =>
      if p.2.isFailed then (acc.1, acc.2 ++ [.connectionFailed p.1])
      else if p.2.isIdle then (acc.1, acc.2 ++ [.connectionClosed p.1])
      else (acc.1 ++ [p], acc.2))
    ([], evs)
  { n with initial := ini, established := est, pendingEvents := evs }

/-- `bindings_and_allocations_drain_events`: one `poll_event` per allocation
(the source flat-maps `poll_event` over the allocations), then dispatch. -/
def Node.drainAllocationEvents (n : Node) : Node :=
  let evs := n.allocations.flatMap fun a => a.2.events.take 1
  let n := { n with allocations := n.allocations.map fun a =>
    (a.1, { a.2 with events := a.2.events.drop 1 }) }
  evs.foldl (fun n ev =>
    match ev with
    | .nw c => n.addLocalCandidateToAll c
    | .invalid c => n.removeLocalCandidateFromAll c) n

/-- `Node::handle_timeout`: drain allocation events, run every established
and initial connection's timeout handler, step the allocations (their
refresh logic is external and modelled as the identity), reset the handshake
rate limiter at most once per second, free dead allocations, and garbage
collect connections. -/
def Node.handleTimeout (n : Node) (now : Nat) : Node :=
  let n := n.drainAllocationEvents
  let (est, ts) := n.established.foldl
    (fun (acc : List (Nat × Connection) × List Transmit) p =>
      let (conn, newTs) := p.2.handleTimeout now n.allocations
      (acc.1 ++ [(p.1, conn)], acc.2 ++ newTs))
    ([], [])
  let n := { n with established := est,
                    bufferedTransmits := n.bufferedTransmits ++ ts }
  let n := { n with initial := n.initial.map fun (p : Nat × InitialConnection) => (p.1, p.2.handleTimeout now) }
  let nextReset := n.nextRateLimiterReset.getD now
  let n :=
    if now ≥ nextReset then { n with nextRateLimiterReset := some (now + 1) }
    else { n with nextRateLimiterReset := some nextReset }
  let n := { n with allocations := n.allocations.filter fun a => a.2.freeReason = none }
  n.gc

end Snownet
end Firezone

namespace Firezone
namespace Snownet

/-- `init_connection`: a fresh connection in `Connecting` with an empty
possible-socket set and a ring buffer of capacity 10. -/
def initConnection (agent : IceAgent) (remote : Nat) (intentSentAt now : Nat) :
    Connection :=
  { agent := agent
    tunnel := Tunn.init
    remotePubKey := remote
    nextTimerUpdate := now
    state := .connecting [] (RingBuffer.new 10)
    intentSentAt := intentSentAt
    signallingCompletedAt := now
    lastOutgoing := now
    lastIncoming := now }

/-- `seed_agent_with_local_candidates`: host candidates first, then every
allocation's current candidates, all through `add_local_candidate`. -/
def Node.seedAgent (n : Node) (cid : Nat) (agent : IceAgent) :
    IceAgent × List NodeEvent :=
  let (agent, evs) := n.hostCandidates.foldl
    (fun (acc : IceAgent × List NodeEvent) c => addLocalCandidate cid acc.1 c acc.2)
    (agent, n.pendingEvents)
  (n.allocations.flatMap fun a => a.2.candidates).foldl
    (fun (acc : IceAgent × List NodeEvent) c => addLocalCandidate cid acc.1 c acc.2)
    (agent, evs)

/-- `Node::new_connection` (client): drop any initial and established entry
for the id, then insert a fresh initial connection. -/
def Node.newConnection (n : Node) (cid : Nat) (intentSentAt now : Nat) : Node :=
  let n := { n with initial := n.initial.filter (·.1 ≠ cid),
                    established := n.established.filter (·.1 ≠ cid) }
  let ic : InitialConnection :=
    { agent := IceAgent.new, sessionKey := 0, createdAt := now
      intentSentAt := intentSentAt, isFailed := false }
  { n with initial := n.initial ++ [(cid, ic)] }

/-- `Node::is_expecting_answer`. -/
def Node.isExpectingAnswer (n : Node) (cid : Nat) : Bool :=
  (n.initial.lookup cid).isSome

/-- `Node::accept_answer` (client): remove the initial entry (ignoring the
answer when there is none), seed its agent with local candidates, and insert
the established connection. -/
def Node.acceptAnswer (n : Node) (cid : Nat) (remote : Nat) (now : Nat) : Node :=
  match n.initial.lookup cid with
  | none => n
  | some ic =>
    let n := { n with initial := n.initial.filter (·.1 ≠ cid) }
    let (agent, evs) := n.seedAgent cid ic.agent
    let conn := initConnection agent remote ic.intentSentAt now
    { n with established := n.established.filter (·.1 ≠ cid) ++ [(cid, conn)],
             pendingEvents := evs }

/-- `Node::accept_connection` (server): drop any established entry for the
id, seed a fresh agent and insert the established connection. -/
def Node.acceptConnection (n : Node) (cid : Nat) (remote : Nat) (now : Nat) : Node :=
  let n := { n with established := n.established.filter (·.1 ≠ cid) }
  let (agent, evs) := n.seedAgent cid IceAgent.new
  let conn := initConnection agent remote now now
  { n with established := n.established ++ [(cid, conn)], pendingEvents := evs }

end Snownet
end Firezone

namespace Firezone
namespace Snownet

/-- `snownet::Error`, restricted to the variants `decapsulate` can return. -/
inductive DecapError where
  | decapsulateE (e : Nat)
  | unhandledStunMessage (numAgents : Nat)
  | unhandledPacket (numTunnels : Nat)
deriving DecidableEq, Repr

/-- `add_local_as_host_candidate`: derive a host candidate from the local
socket and, when new, add it to every agent. -/
def Node.addLocalAsHostCandidate (n : Node) (localAddr : Nat) : Node :=
  let hostCandidate : Candidate := ⟨.host, localAddr⟩
  if hostCandidate ∈ n.hostCandidates then n
  else
    let n := { n with hostCandidates := n.hostCandidates ++ [hostCandidate] }
    n.withAllAgents fun id agent evs => addLocalCandidate id agent hostCandidate evs

/-- `Node::allocations_try_handle`: first-byte heuristic.  `0..=3` (STUN) and
`64..=79` (channel data) are only consumed when the source matches some
allocation's TURN server; a channel-data message continues with the unwrapped
packet; everything else falls through unchanged.  `none` is
`ControlFlow::Break` (consumed). -/
def Node.allocationsTryHandle (n : Node) (fromAddr : Nat) (packet : List Nat) :
    Option (Nat × List Nat × Option Nat) :=
  match packet.head? with
  | some b =>
    if b ≤ 3 then
      match n.allocations.find? (fun a => a.2.matches fromAddr) with
      | none => some (fromAddr, packet, none)
      | some _ => none
    else if 64 ≤ b ∧ b ≤ 79 then
      match n.allocations.find? (fun a => a.2.matches fromAddr) with
      | none => some (fromAddr, packet, none)
      | some (_, alloc) =>
        match alloc.decapResult with
        | some (fromAddr2, packet2, sockAddr) => some (fromAddr2, packet2, some sockAddr)
        | none => none
    else some (fromAddr, packet, none)
  | none => some (fromAddr, packet, none)

/-- `Node::agents_try_handle`, parameterised by the STUN parser (str0m is
external; messages are opaque `Nat`s).  `none` is `ControlFlow::Continue`
(not a STUN message); otherwise the first accepting agent consumes it or an
`UnhandledStunMessage` error is raised. -/
def Node.agentsTryHandle (n : Node) (stunParse : List Nat → Option Nat)
    (packet : List Nat) : Option (Except DecapError Unit) :=
  match stunParse packet with
  | none => none
  | some msg =>
    let agents := n.initial.map (fun p => p.2.agent) ++
      n.established.map (fun p => p.2.agent)
    if agents.any fun a => msg ∈ a.acceptedMsgs then some (.ok ())
    else some (.error (.unhandledStunMessage (n.initial.length + n.established.length)))

/-- `Node::connections_try_handle`: walk the established connections in
order; the first one accepting the source address receives the ciphertext,
and a `ConnectionEstablished` event is pushed on the handshake's completion
transition.  Returns the updated connections, new events and transmits, and
`none` when no connection accepted the packet. -/
def connsTryHandleAux (fromAddr : Nat) (allocations : List (Nat × Allocation))
    (now : Nat) :
    List (Nat × Connection) →
      List (Nat × Connection) × List NodeEvent × List Transmit ×
        Option (Except DecapError (Option (Nat × List Nat)))
  | [] => ([], [], [], none)
  | (cid, conn) :: rest =>
    if conn.accepts fromAddr then
      let before := conn.wgHandshakeComplete
      let (res, conn, newTs) := conn.decapsulate allocations now
      let after := conn.wgHandshakeComplete
      let evs := if !before && after then [NodeEvent.connectionEstablished cid] else []
      let result : Except DecapError (Option (Nat × List Nat)) :=
        match res with
        | .ipPacket pkt => .ok (some (cid, pkt))
        | .internal => .ok none
        | .failedE e => .error (.decapsulateE e)
      ((cid, conn) :: rest, evs, newTs, some result)
    else
      let (rest2, evs, ts, r) := connsTryHandleAux fromAddr allocations now rest
      ((cid, conn) :: rest2, evs, ts, r)

/-- `Node::decapsulate`: promote the local address to a host candidate, try
the allocations (first-byte heuristic), try the agents (STUN), then the
established connections; report `UnhandledPacket` when nothing consumed it. -/
def Node.decapsulate (n : Node) (stunParse : List Nat → Option Nat)
    (localAddr fromAddr : Nat) (packet : List Nat) (now : Nat) :
    Except DecapError (Option (Nat × List Nat)) × Node :=
  let n := n.addLocalAsHostCandidate localAddr
  match n.allocationsTryHandle fromAddr packet with
  | none => (.ok none, n)
  | some (fromAddr, packet, _relayed) =>
    match n.agentsTryHandle stunParse packet with
    | some (.ok ()) => (.ok none, n)
    | some (.error e) => (.error e, n)
    | none =>
      let r4 := connsTryHandleAux fromAddr n.allocations now n.established
      let n := { n with established := r4.1,
                        pendingEvents := n.pendingEvents ++ r4.2.1,
                        bufferedTransmits := n.bufferedTransmits ++ r4.2.2.1 }
      match r4.2.2.2 with
      | some result => (result, n)
      | none => (.error (.unhandledPacket n.established.length), n)

end Snownet
end Firezone

namespace Firezone
namespace Snownet

/-- The agent component of `add_local_candidate` does not depend on the event
queue: the agent is left alone for server-reflexive candidates and updated
through `IceAgent::add_local_candidate` otherwise. -/
def agentAfterAdd (c : Candidate) (a : IceAgent) : IceAgent :=
  if c.kind = .serverReflexive then a else (a.addLocalCandidate c).2

/-- The events appended by `add_local_candidate` for one agent. -/
def newEvs (c : Candidate) (id : Nat) (a : IceAgent) : List NodeEvent :=
  if c.kind = .serverReflexive then [.newIceCandidate id c]
  else if c ∈ a.localCandidates then [] else [.newIceCandidate id c]

lemma addLocalCandidate_eq (id : Nat) (a : IceAgent) (c : Candidate)
    (e : List NodeEvent) :
    addLocalCandidate id a c e = (agentAfterAdd c a, e ++ newEvs c id a) := by
  unfold addLocalCandidate agentAfterAdd newEvs IceAgent.addLocalCandidate
  by_cases hk : c.kind = CandidateKind.serverReflexive
  · simp [hk]
  · by_cases hm : c ∈ a.localCandidates <;> simp [hk, hm]

lemma foldl_acc_ev {γ α β : Type} (upd : γ → α) (ev : γ → List β) :
    ∀ (l : List γ) (acc : List α) (evs : List β),
      l.foldl (fun a p => (a.1 ++ [upd p], a.2 ++ ev p)) (acc, evs)
        = (acc ++ l.map upd, evs ++ l.flatMap ev) := by
  intro l
  induction l with
  | nil => intro acc evs; simp
  | cons p t ih =>
    intro acc evs
    simp only [List.foldl_cons, ih, List.map_cons, List.flatMap_cons]
    simp [List.append_assoc]

/-- Effect of running `add_local_candidate` with a fixed candidate over every
agent, initial connections first. -/
lemma withAllAgents_addCandidate (n : Node) (c : Candidate) :
    n.withAllAgents (fun id a e => addLocalCandidate id a c e)
      = { n with
          initial := n.initial.map fun p =>
            (p.1, { p.2 with agent := agentAfterAdd c p.2.agent }),
          established := n.established.map fun p =>
            (p.1, { p.2 with agent := agentAfterAdd c p.2.agent }),
          pendingEvents := n.pendingEvents
            ++ n.initial.flatMap (fun p => newEvs c p.1 p.2.agent)
            ++ n.established.flatMap (fun p => newEvs c p.1 p.2.agent) } := by
  unfold Node.withAllAgents
  simp only [addLocalCandidate_eq]
  rw [foldl_acc_ev, foldl_acc_ev]
  simp [List.append_assoc]

end Snownet
end Firezone

namespace Firezone
namespace Snownet

/-- Claim C3: server-reflexive candidates are never added to any local ICE
agent and are signalled with exactly one `NewIceCandidate` per connection
(both in the per-agent helper and across all connections); candidates of
other kinds are added to the agent, and a `NewIceCandidate` is emitted iff
the agent reports the candidate as new. -/
theorem srflx_candidates_signalled_not_added (n : Node) (id : Nat)
    (agent : IceAgent) (c : Candidate) (evs : List NodeEvent) :
    (c.kind = .serverReflexive →
      (addLocalCandidate id agent c evs).1 = agent ∧
      (addLocalCandidate id agent c evs).2 = evs ++ [.newIceCandidate id c] ∧
      (n.addLocalCandidateToAll c).initial = n.initial ∧
      (n.addLocalCandidateToAll c).established = n.established ∧
      (n.addLocalCandidateToAll c).pendingEvents = n.pendingEvents ++
        (n.initial.map Prod.fst ++ n.established.map Prod.fst).map
          (fun i => .newIceCandidate i c)) ∧
    (c.kind ≠ .serverReflexive →
      ((addLocalCandidate id agent c evs).2 = evs ++ [.newIceCandidate id c]
          ↔ c ∉ agent.localCandidates) ∧
      ((addLocalCandidate id agent c evs).2 = evs ↔ c ∈ agent.localCandidates) ∧
      c ∈ (addLocalCandidate id agent c evs).1.localCandidates) := by
  constructor
  · intro hk
    refine ⟨?_, ?_, ?_, ?_, ?_⟩
    · rw [addLocalCandidate_eq]; simp [agentAfterAdd, hk]
    · rw [addLocalCandidate_eq]; simp [newEvs, hk]
    · rw [Node.addLocalCandidateToAll, withAllAgents_addCandidate]
      simp only [agentAfterAdd, hk, if_pos]
      exact List.map_id _
    · rw [Node.addLocalCandidateToAll, withAllAgents_addCandidate]
      simp only [agentAfterAdd, hk, if_pos]
      exact List.map_id _
    · rw [Node.addLocalCandidateToAll, withAllAgents_addCandidate]
      simp only [newEvs, hk, if_pos]
      rw [List.map_append, List.map_map, List.map_map,
        List.map_eq_flatMap, List.map_eq_flatMap, List.append_assoc]
      rfl
  · intro hk
    rw [addLocalCandidate_eq]
    by_cases hm : c ∈ agent.localCandidates
    · refine ⟨?_, ?_, ?_⟩
      · simp [newEvs, hk, hm]
      · simp [newEvs, hk, hm]
      · simp [agentAfterAdd, hk, IceAgent.addLocalCandidate, hm]
    · refine ⟨?_, ?_, ?_⟩
      · simp [newEvs, hk, hm]
      · simp [newEvs, hk, hm]
      · simp [agentAfterAdd, hk, IceAgent.addLocalCandidate, hm]

/-- Witness for C3: a server-reflexive candidate on a node with one initial
and one established connection leaves both agents alone and queues one
`NewIceCandidate` per connection. -/
theorem srflx_candidates_signalled_not_added_witness :
    (addLocalCandidate 1 IceAgent.new ⟨.serverReflexive, 7⟩ []).1 = IceAgent.new ∧
    (addLocalCandidate 1 IceAgent.new ⟨.serverReflexive, 7⟩ []).2
      = [.newIceCandidate 1 ⟨.serverReflexive, 7⟩] ∧
    (Node.new.addLocalCandidateToAll ⟨.serverReflexive, 7⟩).initial = [] ∧
    (Node.new.addLocalCandidateToAll ⟨.serverReflexive, 7⟩).established = [] ∧
    (Node.new.addLocalCandidateToAll ⟨.serverReflexive, 7⟩).pendingEvents = [] := by
  have h := (srflx_candidates_signalled_not_added Node.new 1 IceAgent.new
    ⟨.serverReflexive, 7⟩ []).1 rfl
  exact ⟨h.1, h.2.1, h.2.2.1, h.2.2.2.1, h.2.2.2.2⟩

end Snownet
end Firezone

namespace Firezone
namespace Snownet

/-- Claim C10: removing a server-reflexive candidate emits `NewIceCandidate`
(not `InvalidateIceCandidate`) and does not touch the agent;
`InvalidateIceCandidate` is emitted exactly for non-server-reflexive
candidates that the agent reports present. -/
theorem srflx_removal_emits_new_candidate (id : Nat) (agent : IceAgent)
    (c : Candidate) (evs : List NodeEvent) :
    (c.kind = .serverReflexive →
      (removeLocalCandidate id agent c evs).1 = agent ∧
      (removeLocalCandidate id agent c evs).2 = evs ++ [.newIceCandidate id c]) ∧
    (c.kind ≠ .serverReflexive →
      ((removeLocalCandidate id agent c evs).2
          = evs ++ [.invalidateIceCandidate id c] ↔ c ∈ agent.localCandidates) ∧
      ((removeLocalCandidate id agent c evs).2 = evs ↔ c ∉ agent.localCandidates)) := by
  unfold removeLocalCandidate IceAgent.invalidateCandidate
  constructor
  · intro hk
    simp [hk]
  · intro hk
    by_cases hm : c ∈ agent.localCandidates <;> simp [hk, hm]

/-- Witness for C10: removing a server-reflexive candidate from a fresh agent
queues a `NewIceCandidate` and leaves the agent untouched. -/
theorem srflx_removal_emits_new_candidate_witness :
    (removeLocalCandidate 2 IceAgent.new ⟨.serverReflexive, 9⟩ []).1 = IceAgent.new ∧
    (removeLocalCandidate 2 IceAgent.new ⟨.serverReflexive, 9⟩ []).2
      = [.newIceCandidate 2 ⟨.serverReflexive, 9⟩] :=
  (srflx_removal_emits_new_candidate 2 IceAgent.new ⟨.serverReflexive, 9⟩ []).1 rfl

end Snownet
end Firezone

namespace Firezone
namespace Snownet

/-- No `ConnectionId` is present in both the initial and the established
map. -/
def Node.disjointMaps (n : Node) : Prop :=
  ∀ k, k ∈ n.initial.map Prod.fst → k ∉ n.established.map Prod.fst

instance (n : Node) : Decidable n.disjointMaps := by
  unfold Node.disjointMaps
  infer_instance

lemma mem_keys_filter {α : Type} {l : List (Nat × α)} {k cid : Nat} :
    (k ∈ (l.filter fun p => p.1 ≠ cid).map Prod.fst) ↔
      (k ∈ l.map Prod.fst ∧ k ≠ cid) := by
  simp only [List.mem_map, List.mem_filter, decide_eq_true_iff]
  constructor
  · rintro ⟨p, ⟨hp, hne⟩, rfl⟩
    exact ⟨⟨p, hp, rfl⟩, hne⟩
  · rintro ⟨⟨p, hp, rfl⟩, hne⟩
    exact ⟨p, ⟨hp, hne⟩, rfl⟩

/-- Claim C9: `new_connection`, `accept_answer` and `accept_connection` all
preserve the invariant that a `ConnectionId` lives in at most one of the two
connection maps.  For `accept_connection` the source's
`debug_assert!(!initial.contains_key(cid))` is the server-role precondition
(a server never populates the initial map). -/
theorem connection_maps_disjoint (n : Node) (cid remote intentSentAt now : Nat)
    (h : n.disjointMaps) :
    (n.newConnection cid intentSentAt now).disjointMaps ∧
    (n.acceptAnswer cid remote now).disjointMaps ∧
    (cid ∉ n.initial.map Prod.fst →
      (n.acceptConnection cid remote now).disjointMaps) := by
  refine ⟨?_, ?_, ?_⟩
  · intro k hk
    unfold Node.newConnection at hk ⊢
    simp only [List.map_append] at hk
    rw [List.mem_append] at hk
    rcases hk with hk | hk
    · rw [mem_keys_filter] at hk
      rw [mem_keys_filter]
      intro hcontra
      exact h k hk.1 hcontra.1
    · simp only [List.map_cons, List.map_nil, List.mem_singleton] at hk
      subst hk
      rw [mem_keys_filter]
      simp
  · unfold Node.acceptAnswer
    cases hl : n.initial.lookup cid with
    | none => exact h
    | some ic =>
      intro k hk
      simp only at hk ⊢
      rw [mem_keys_filter] at hk
      simp only [List.map_append, List.mem_append]
      rintro (hcontra | hcontra)
      · rw [mem_keys_filter] at hcontra
        exact h k hk.1 hcontra.1
      · simp only [List.map_cons, List.map_nil, List.mem_singleton] at hcontra
        exact hk.2 hcontra
  · intro hini k hk
    unfold Node.acceptConnection at hk ⊢
    simp only at hk ⊢
    simp only [List.map_append, List.mem_append]
    rintro (hcontra | hcontra)
    · rw [mem_keys_filter] at hcontra
      exact h k hk hcontra.1
    · simp only [List.map_cons, List.map_nil, List.mem_singleton] at hcontra
      subst hcontra
      exact hini hk

/-- Witness for C9 on a node holding one initial connection `1` and one
established connection `2`. -/
theorem connection_maps_disjoint_witness :
    ({ Node.new with
        initial := [(1, ⟨IceAgent.new, 0, 0, 0, false⟩)],
        established := [(2, initConnection IceAgent.new 0 0 0)] } : Node).disjointMaps ∧
    (({ Node.new with
        initial := [(1, ⟨IceAgent.new, 0, 0, 0, false⟩)],
        established := [(2, initConnection IceAgent.new 0 0 0)] } : Node).newConnection
          3 0 0).disjointMaps := by
  have hd : ({ Node.new with
      initial := [(1, ⟨IceAgent.new, 0, 0, 0, false⟩)],
      established := [(2, initConnection IceAgent.new 0 0 0)] } : Node).disjointMaps := by
    decide
  exact ⟨hd, (connection_maps_disjoint _ 3 0 0 0 hd).1⟩

end Snownet
end Firezone

namespace Firezone
namespace Snownet

/-- Drain up to `fuel` events through `Node::poll_event`. -/
def Node.drainAux : Nat → Node → List NodeEvent × Node
  | 0, n => ([], n)
  | fuel + 1, n =>
    match n.pollEvent with
    | none => ([], n)
    | some (e, n2) =>
      let (evs, n3) := Node.drainAux fuel n2
      (e :: evs, n3)

/-- Repeatedly call `Node::poll_event` until it returns `None`, collecting
the yielded events and the final node. -/
def Node.drain (n : Node) : List NodeEvent × Node :=
  Node.drainAux n.pendingEvents.length n

lemma drainAux_spec : ∀ (l : List NodeEvent) (n : Node), n.pendingEvents = l →
    Node.drainAux l.length n = (l, { n with pendingEvents := [] }) := by
  intro l
  induction l with
  | nil =>
    intro n h
    simp only [List.length_nil, Node.drainAux]
    rw [show ({ n with pendingEvents := [] } : Node) = n by rw [← h]]
  | cons e t ih =>
    intro n h
    simp only [List.length_cons, Node.drainAux, Node.pollEvent, h]
    rw [ih { n with pendingEvents := t } rfl]

lemma drain_spec (n : Node) : n.drain = (n.pendingEvents, { n with pendingEvents := [] }) :=
  drainAux_spec n.pendingEvents n rfl

/-- Claim C2: `reset()` queues exactly one `ConnectionClosed` per previously
existing connection id (initial ones first, then established), which is what
successive `poll_event` calls yield before returning `None`; allocations,
buffered transmits, host candidates and both connection maps are cleared, and
the drained node's `poll_event` stays `None`. -/
theorem reset_emits_closed_per_connection (n : Node) :
    (n.reset.drain.1
      = (n.initial.map Prod.fst ++ n.established.map Prod.fst).map
          NodeEvent.connectionClosed) ∧
    n.reset.drain.2.pollEvent = none ∧
    n.reset.drain.1.length = n.initial.length + n.established.length ∧
    n.reset.allocations = [] ∧
    n.reset.bufferedTransmits = [] ∧
    n.reset.hostCandidates = [] ∧
    n.reset.initial = [] ∧
    n.reset.established = [] := by
  rw [drain_spec]
  refine ⟨rfl, rfl, ?_, rfl, rfl, rfl, rfl, rfl⟩
  simp [Node.reset]

end Snownet
end Firezone

namespace Firezone
namespace Snownet

/-- Counterexample to claim C8 as stated: on a fresh node,
`handle_timeout(0)` makes `poll_timeout` report instant 1 (the pending
rate-limiter reset); the state-mutating call `handle_timeout(1)` then moves
the reported deadline to instant 2 — later, not earlier. -/
theorem poll_timeout_moves_later_counterexample :
    (Node.new.handleTimeout 0).pollTimeout = some 1 ∧
    ((Node.new.handleTimeout 0).handleTimeout 1).pollTimeout = some 2 ∧
    ¬ (2 ≤ 1) := by decide

/-- Claim C8 (amended): `poll_timeout` is a pure function of the node state,
so absent state changes repeated calls return the same instant; but a
state-mutating call may move the deadline later as well as earlier — in
particular `handle_timeout(now)` at or past the pending rate-limiter reset
reschedules that reset, and with no connections or allocations the reported
deadline becomes `now + 1s`. -/
theorem handle_timeout_reschedules_rate_limiter (n : Node) (now : Nat)
    (h1 : n.initial = []) (h2 : n.established = []) (h3 : n.allocations = [])
    (h4 : n.nextRateLimiterReset.getD now ≤ now) :
    (n.handleTimeout now).pollTimeout = some (now + 1) := by
  obtain ⟨hc, bt, nrr, al, ini, est, pe⟩ := n
  simp only at h1 h2 h3 h4
  subst h1 h2 h3
  simp only [Node.handleTimeout, Node.drainAllocationEvents, Node.gc, Node.pollTimeout,
    List.flatMap_nil, List.map_nil, List.foldl_nil, List.filter_nil, List.append_nil]
  rw [if_pos h4]
  simp [earliest]

/-- Witness for the amended C8 at a fresh node and `now = 5`. -/
theorem handle_timeout_reschedules_rate_limiter_witness :
    (Node.new.handleTimeout 5).pollTimeout = some 6 :=
  handle_timeout_reschedules_rate_limiter Node.new 5 rfl rfl rfl (by decide)

end Snownet
end Firezone

namespace Firezone
namespace Snownet

lemma conn_handleTimeout_candidate_fail (conn : Connection) (now : Nat)
    (allocs : List (Nat × Allocation))
    (hrc : conn.agent.remoteCandidates = [])
    (hnow : conn.signallingCompletedAt + candidateTimeoutDur ≤ now) :
    conn.handleTimeout now allocs = ({ conn with state := .failed }, []) := by
  unfold Connection.handleTimeout Connection.candidateTimeout
  rw [hrc]
  simp only [ne_eq, not_true_eq_false, if_false, Option.any_some]
  rw [if_pos (by simpa using hnow)]

/-- Claim C6: a connection whose agent has received no remote candidates
fails on any `handle_timeout` at or after `signalling_completed_at + 10s`;
on a node holding such a connection (with nothing else queued) the
garbage-collection pass of that same `handle_timeout` removes it and the next
`poll_event` yields `ConnectionFailed(cid)`. -/
theorem candidate_timeout_fails_connection (n : Node) (cid : Nat)
    (conn : Connection) (now : Nat)
    (hconn : n.established = [(cid, conn)]) (hini : n.initial = [])
    (halloc : n.allocations = []) (hpend : n.pendingEvents = [])
    (hrc : conn.agent.remoteCandidates = [])
    (hnow : conn.signallingCompletedAt + candidateTimeoutDur ≤ now) :
    (∀ (conn2 : Connection) (allocs : List (Nat × Allocation)),
      conn2.agent.remoteCandidates = [] →
      conn2.signallingCompletedAt + candidateTimeoutDur ≤ now →
      (conn2.handleTimeout now allocs).1.state = ConnState.failed) ∧
    (n.handleTimeout now).established = [] ∧
    (n.handleTimeout now).pollEvent.map Prod.fst
      = some (NodeEvent.connectionFailed cid) := by
  refine ⟨?_, ?_⟩
  · intro conn2 allocs h1 h2
    rw [conn_handleTimeout_candidate_fail conn2 now allocs h1 h2]
  · obtain ⟨hc, bt, nrr, al, ini, est, pe⟩ := n
    simp only at hconn hini halloc hpend
    subst hconn hini halloc hpend
    simp only [Node.handleTimeout, Node.drainAllocationEvents, Node.gc,
      List.flatMap_nil, List.map_nil, List.foldl_nil, List.filter_nil,
      List.append_nil, List.foldl_cons]
    rw [conn_handleTimeout_candidate_fail conn now [] hrc hnow]
    simp only [Connection.isFailed, Connection.isIdle]
    split_ifs <;>
      simp [Node.pollEvent]

end Snownet
end Firezone

namespace Firezone
namespace Snownet

/-- Witness for C6: a fresh connection created at `t = 0` with no remote
candidates, driven by `handle_timeout(10)`. -/
theorem candidate_timeout_fails_connection_witness :
    (({ Node.new with established := [(7, initConnection IceAgent.new 0 0 0)] }
        : Node).handleTimeout 10).established = [] ∧
    (({ Node.new with established := [(7, initConnection IceAgent.new 0 0 0)] }
        : Node).handleTimeout 10).pollEvent.map Prod.fst
      = some (NodeEvent.connectionFailed 7) :=
  (candidate_timeout_fails_connection _ 7 (initConnection IceAgent.new 0 0 0) 10
    rfl rfl rfl rfl rfl (by decide)).2

end Snownet
end Firezone

namespace Firezone
namespace Snownet

lemma filterMap_some {α β : Type} (f : α → β) (l : List α) :
    l.filterMap (fun x => some (f x)) = l.map f := by
  induction l with
  | nil => rfl
  | cons x t ih => simp [List.filterMap_cons, ih]

lemma conn_handleTimeout_nominated (conn : Connection)
    (allocs : List (Nat × Allocation)) (now : Nat) (source dest : Nat)
    (possible : List Nat) (buffered : RingBuffer) (hs : List Nat)
    (hstate : conn.state = .connecting possible buffered)
    (hevs : conn.agent.events = [.nominatedSend source dest])
    (hts : conn.agent.transmits = [])
    (hrc : conn.agent.remoteCandidates ≠ [])
    (hidle : now < conn.idleTimeout)
    (htimer : now < conn.nextTimerUpdate)
    (hhs : conn.tunnel.handshakeInitiation = some hs) :
    conn.handleTimeout now allocs
      = ({ conn with
            agent := { conn.agent with events := [], transmits := [] },
            state := .connected (nominatedSocket allocs source dest) possible },
          buffered.items.filterMap
              (fun p => makeOwnedTransmit (nominatedSocket allocs source dest) p allocs)
            ++ (makeOwnedTransmit (nominatedSocket allocs source dest) hs allocs).toList) := by
  unfold Connection.handleTimeout
  rw [Connection.candidateTimeout, if_pos hrc]
  simp only [Option.any_none, Bool.false_eq_true, if_false]
  rw [if_neg (show ¬ now ≥ conn.idleTimeout by omega)]
  rw [if_neg (show ¬ now ≥ conn.nextTimerUpdate by omega)]
  unfold Connection.drainAgent
  rw [hevs, hts]
  simp only [List.foldl_cons, List.foldl_nil]
  unfold Connection.processIceEvent
  simp only [hstate]
  unfold Connection.forceHandshake
  simp only [hhs]
  unfold Connection.socket
  simp only [List.nil_append]

end Snownet
end Firezone

namespace Firezone
namespace Snownet

/-- Claim C5: when a `Connecting` connection handles `NominatedSend` during
`handle_timeout`, it transitions to `Connected` on the resolved peer socket,
the buffered WG packets are appended to the transmit queue in FIFO order —
each sent via the new peer socket, wrapped as channel data when the nominated
source belongs to an allocation — followed by the WG handshake-initiation
packet; when the source is direct, the queue is exactly the buffered packets
then the handshake packet, all addressed `src = source, dst = dest`. -/
theorem nomination_flushes_buffered (conn : Connection)
    (allocs : List (Nat × Allocation)) (now : Nat) (source dest : Nat)
    (possible : List Nat) (buffered : RingBuffer) (hs : List Nat)
    (hstate : conn.state = .connecting possible buffered)
    (hevs : conn.agent.events = [.nominatedSend source dest])
    (hts : conn.agent.transmits = [])
    (hrc : conn.agent.remoteCandidates ≠ [])
    (hidle : now < conn.idleTimeout)
    (htimer : now < conn.nextTimerUpdate)
    (hhs : conn.tunnel.handshakeInitiation = some hs) :
    ((conn.handleTimeout now allocs).1.state
      = ConnState.connected (nominatedSocket allocs source dest) possible) ∧
    ((conn.handleTimeout now allocs).2
      = buffered.items.filterMap
          (fun p => makeOwnedTransmit (nominatedSocket allocs source dest) p allocs)
        ++ (makeOwnedTransmit (nominatedSocket allocs source dest) hs allocs).toList) ∧
    ((allocs.find? fun a => a.2.hasSocket source) = none →
      (conn.handleTimeout now allocs).2
        = (buffered.items ++ [hs]).map fun p =>
            ({ src := some source, dst := dest, payload := p } : Transmit)) := by
  rw [conn_handleTimeout_nominated conn allocs now source dest possible buffered hs
    hstate hevs hts hrc hidle htimer hhs]
  refine ⟨rfl, rfl, ?_⟩
  intro hfind
  have hsock : nominatedSocket allocs source dest = PeerSocket.direct source dest := by
    unfold nominatedSocket
    rw [hfind]
  rw [hsock]
  simp only [makeOwnedTransmit]
  rw [filterMap_some (fun p => ({ src := some source, dst := dest, payload := p } : Transmit))]
  simp [List.map_append]

/-- Witness for C5, mirroring scenario S4: three buffered packets, nomination
of the direct path `100 → 200`, handshake initiation `[9]`. -/
theorem nomination_flushes_buffered_witness :
    ((({ agent := { IceAgent.new with
            events := [.nominatedSend 100 200],
            remoteCandidates := [⟨.host, 50⟩] },
          tunnel := { Tunn.init with handshakeInitiation := some [9] },
          remotePubKey := 0, nextTimerUpdate := 1,
          state := .connecting [] ⟨10, [[1], [2], [3]]⟩,
          intentSentAt := 0, signallingCompletedAt := 0,
          lastOutgoing := 0, lastIncoming := 0 } : Connection).handleTimeout 0 []).2
      = ([[1], [2], [3]] ++ [[9]]).map fun p =>
          ({ src := some 100, dst := 200, payload := p } : Transmit)) :=
  (nomination_flushes_buffered _ [] 0 100 200 [] ⟨10, [[1], [2], [3]]⟩ [9]
    rfl rfl rfl (by decide) (by decide) (by decide) rfl).2.2 rfl

end Snownet
end Firezone

namespace Firezone
namespace Snownet

lemma allocationsTryHandle_congr {n m : Node} (h : n.allocations = m.allocations)
    (fromAddr : Nat) (packet : List Nat) :
    n.allocationsTryHandle fromAddr packet = m.allocationsTryHandle fromAddr packet := by
  unfold Node.allocationsTryHandle
  rw [h]

/-- Promoting the local address to a host candidate touches only the host
candidate set, the agents and the pending events: allocations are unchanged
and every established connection keeps its id, state and tunnel. -/
lemma addLocalAsHostCandidate_shape (n : Node) (localAddr : Nat) :
    ∃ g : IceAgent → IceAgent,
      (n.addLocalAsHostCandidate localAddr).allocations = n.allocations ∧
      (n.addLocalAsHostCandidate localAddr).established
        = n.established.map fun p => (p.1, { p.2 with agent := g p.2.agent }) := by
  unfold Node.addLocalAsHostCandidate
  by_cases hm : (⟨.host, localAddr⟩ : Candidate) ∈ n.hostCandidates
  · rw [if_pos hm]
    exact ⟨id, rfl, (List.map_id _).symm⟩
  · rw [if_neg hm]
    refine ⟨agentAfterAdd ⟨.host, localAddr⟩, ?_, ?_⟩
    · rw [withAllAgents_addCandidate]
    · rw [withAllAgents_addCandidate]

lemma connsTryHandleAux_result (fromAddr : Nat)
    (allocs : List (Nat × Allocation)) (now : Nat) :
    ∀ (pre : List (Nat × Connection)),
      (∀ p ∈ pre, p.2.accepts fromAddr = false) →
      ∀ (cid : Nat) (conn : Connection) (post : List (Nat × Connection))
        (pkt : List Nat),
        conn.accepts fromAddr = true → conn.tunnel.decapResult = .toTunnel pkt →
        (connsTryHandleAux fromAddr allocs now (pre ++ (cid, conn) :: post)).2.2.2
          = some (.ok (some (cid, pkt))) := by
  intro pre
  induction pre with
  | nil =>
    intro _ cid conn post pkt hacc hdecap
    rw [List.nil_append]
    unfold connsTryHandleAux
    rw [if_pos hacc]
    unfold Connection.decapsulate
    rw [hdecap]
  | cons p t ih =>
    intro hpre cid conn post pkt hacc hdecap
    rw [List.cons_append]
    unfold connsTryHandleAux
    rw [if_neg (by rw [hpre p (List.mem_cons_self p t)]; exact Bool.false_ne_true)]
    exact ih (fun q hq => hpre q (List.mem_cons_of_mem p hq)) cid conn post pkt hacc hdecap

/-- Claim C4: a packet whose first byte looks like STUN (`0..=3`) or channel
data (`64..=79`) but whose source matches no allocation's TURN server is not
handed to an allocation (`allocations_try_handle` falls through with the
packet unchanged), and — when it is not parseable as STUN — `decapsulate`
hands it to the first established connection accepting the source, which
decrypts it. -/
theorem wg_false_positive_bypasses_allocations (n : Node)
    (stunParse : List Nat → Option Nat) (localAddr fromAddr : Nat)
    (packet : List Nat) (now : Nat) (b : Nat)
    (hb : packet.head? = some b)
    (hrange : b ≤ 3 ∨ (64 ≤ b ∧ b ≤ 79))
    (hnomatch : ∀ p ∈ n.allocations, p.2.matches fromAddr = false)
    (hstun : stunParse packet = none)
    (pre post : List (Nat × Connection)) (cid : Nat) (conn : Connection)
    (hest : n.established = pre ++ (cid, conn) :: post)
    (hpre : ∀ p ∈ pre, p.2.accepts fromAddr = false)
    (hacc : conn.accepts fromAddr = true)
    (pkt : List Nat) (hdecap : conn.tunnel.decapResult = .toTunnel pkt) :
    n.allocationsTryHandle fromAddr packet = some (fromAddr, packet, none) ∧
    (n.decapsulate stunParse localAddr fromAddr packet now).1
      = .ok (some (cid, pkt)) := by
  have hfind : ∀ m : Node, m.allocations = n.allocations →
      (m.allocations.find? fun a => a.2.matches fromAddr) = none := by
    intro m hm
    rw [hm, List.find?_eq_none]
    intro p hp
    rw [hnomatch p hp]
    exact Bool.false_ne_true
  have halloc1 : n.allocationsTryHandle fromAddr packet
      = some (fromAddr, packet, none) := by
    unfold Node.allocationsTryHandle
    rw [hb, hfind n rfl]
    rcases hrange with h3 | h64
    · simp [h3]
    · have hn3 : ¬ b ≤ 3 := by omega
      simp [hn3, h64]
  refine ⟨halloc1, ?_⟩
  obtain ⟨g, hga, hge⟩ := addLocalAsHostCandidate_shape n localAddr
  have hagents : (n.addLocalAsHostCandidate localAddr).agentsTryHandle
      stunParse packet = none := by
    unfold Node.agentsTryHandle
    rw [hstun]
  simp only [Node.decapsulate]
  rw [allocationsTryHandle_congr hga, halloc1]
  simp only []
  rw [hagents]
  simp only []
  rw [hest] at hge
  simp only [List.map_append, List.map_cons] at hge
  rw [hga, hge]
  rw [connsTryHandleAux_result fromAddr n.allocations now _
    (by
      intro q hq
      rw [List.mem_map] at hq
      obtain ⟨q0, hq0, rfl⟩ := hq
      exact hpre q0 hq0)
    cid ({ conn with agent := g conn.agent }) _ pkt
    (show ({ conn with agent := g conn.agent } : Connection).accepts fromAddr
        = true from hacc)
    (show ({ conn with agent := g conn.agent } : Connection).tunnel.decapResult
        = TunnDecap.toTunnel pkt from hdecap)]

end Snownet
end Firezone

namespace Firezone
namespace Snownet

/-- The connection used by the C4 witness: connected directly to peer `5`,
tunnel ready to decrypt the next ciphertext into `[42]`. -/
def c4Conn : Connection :=
  { agent := IceAgent.new
    tunnel := { Tunn.init with decapResult := .toTunnel [42] }
    remotePubKey := 0
    nextTimerUpdate := 0
    state := .connected (.direct 8 5) []
    intentSentAt := 0
    signallingCompletedAt := 0
    lastOutgoing := 0
    lastIncoming := 0 }

/-- Witness for C4: a packet starting with byte 2 from source `5`, on a node
with no allocations and one connection accepting `5`, bypasses the
allocations and is decrypted by that connection. -/
theorem wg_false_positive_bypasses_allocations_witness :
    ({ Node.new with established := [(3, c4Conn)] } : Node).allocationsTryHandle
        5 [2, 7] = some (5, [2, 7], none) ∧
    (({ Node.new with established := [(3, c4Conn)] } : Node).decapsulate
        (fun _ => none) 1 5 [2, 7] 0).1 = .ok (some (3, [42])) :=
  wg_false_positive_bypasses_allocations
    ({ Node.new with established := [(3, c4Conn)] }) (fun _ => none) 1 5 [2, 7] 0 2
    rfl (Or.inl (by decide)) (by intro p hp; simp [Node.new] at hp) rfl
    [] [] 3 c4Conn rfl (by intro p hp; simp at hp) (by decide) [42] rfl

end Snownet
end Firezone
